import Mathlib

/-!
Verification of the scholarphi entity-localization core against its
specification.  The definitions below are a shallow embedding of
`data-processing/common/locate_entities.py` and
`data-processing/entities/citations/commands/write_citations_output.py`.

Raster images are modelled after the `cv2.cvtColor(..., COLOR_BGR2HSV)`
conversion that both image functions apply first: a pixel carries its 8-bit
HSV channels (hue in 0..179, saturation and value in 0..255).  The colour
conversion itself is OpenCV library code external to the repository, so the
embedding starts from the converted channels.  Floating point hue/tolerance
arithmetic is modelled over the rationals.
-/

/-- One pixel of a page raster, in OpenCV HSV channel encoding. -/
structure Pixel where
  h : ℕ
  s : ℕ
  v : ℕ
deriving Repr, DecidableEq

/-- A page raster.  The numpy operations used by the code are elementwise
followed by `np.any`, so the 2-D grid is modelled as the flat list of its
pixels (row-major). -/
abbrev Image := List Pixel

/-- `contains_black_pixels` (locate_entities.py lines 75-91): a pixel is an
artifact when saturation < 20 and value < 150, and the function is `np.any`
of that elementwise test. -/
def contains_black_pixels (img : Image) : Bool :=
  img.any fun p => decide (p.s < 20) && decide (p.v < 150)

/-- The blank-pixel test of `has_hue_shifted` (lines 104-120): saturation
strictly below 10 and value strictly above 230. -/
def blankPixel (p : Pixel) : Bool :=
  decide (p.s < 10) && decide (p.v > 230)

/-- `np.minimum(distance_to_hue, CV2_MAXIMUM_HUE - distance_to_hue)` for one
pixel (lines 129-133): circular distance between a stored hue channel value
and a target hue, both on the 0..180 OpenCV hue scale. -/
def absDistanceToHue (hpx cv2hue : ℚ) : ℚ :=
  min |hpx - cv2hue| (180 - |hpx - cv2hue|)

/-- The per-pixel hue test of `has_hue_shifted` (lines 127-134): the target
`hue` and `tolerance` are normalized to [0,1) and scaled by
`CV2_MAXIMUM_HUE = 180`; a stored hue channel `hpx` matches when the
circular distance is at most the scaled tolerance. -/
def hueMatches (hpx : ℕ) (hue tolerance : ℚ) : Bool :=
  decide (absDistanceToHue (hpx : ℚ) (hue * 180) ≤ tolerance * 180)

/-- `has_hue_shifted` (locate_entities.py lines 93-134): a pixel position
counts when its blank/non-blank classification differs between `before` and
`after` (`np.logical_xor`) and the `after` hue at that position matches the
target hue within tolerance; the result is `np.any` over all positions.
The elementwise pairing of the two equal-shaped arrays is modelled by
`List.zip`. -/
def has_hue_shifted (before after : Image) (hue tolerance : ℚ) : Bool :=
  (before.zip after).any fun pq =>
    (blankPixel pq.1 != blankPixel pq.2) && hueMatches pq.2.h hue tolerance

/-- Spec-side formulation of circular hue distance on the normalized [0,1)
hue circle, used to compare the spec wording of C2 with the code. -/
def specCircularDistance (x y : ℚ) : ℚ :=
  min |x - y| (1 - |x - y|)

/-!
## The page-pair locator `locate_entities`

`locate_entities` (lines 25-72) iterates over the output files of the
compiled document.  Collaborators external to the repository are passed in
as data: `get_output_files` yields the list `output_paths`; the file system
(`os.path.exists` + `os.listdir` + `cv2.imread`, applied to the per-file
diff directory `os.path.join(diff_images_dir, relative_file_path)`) is a
map `diffDirs` from the relative output path to `none` (directory missing)
or the directory listing of image file names and decoded images; and
`common.bounding_box.extract_bounding_boxes` is a parameter `extract`.
A Python run can end in an uncaught exception, in `return None`, or in a
`LocationResult`; the three are the constructors of `LocateOutcome`.
-/

/-- `common.types.BoundingBox` as used here: opaque geometric payload. -/
structure BoundingBox where
  page : ℤ
  left : ℚ
  top : ℚ
  width : ℚ
  height : ℚ
deriving Repr, DecidableEq

/-- `LocationResult` (locate_entities.py lines 17-22).  The Python dict of
entity locations is modelled as an insertion-ordered association list. -/
structure LocationResult where
  locations : List (String × List BoundingBox)
  shifted_entities : List String
  first_shifted_entity : Option String
  black_pixels_found : Bool
deriving Repr, DecidableEq

/-- Possible outcomes of a `locate_entities` call: an uncaught exception
(carrying the offending file name), the `None` return, or a result. -/
inductive LocateOutcome where
  | raised : String → LocateOutcome
  | failed : LocateOutcome
  | success : LocationResult → LocateOutcome
deriving Repr, DecidableEq

/-- The stem part of `os.path.splitext(name)`: everything before the last
dot, except that a dot with no earlier non-dot character in the name does
not start an extension (Python treats leading dots as part of the stem). -/
def splitextStem (name : String) : String :=
  let cs := name.toList
  match cs.reverse.findIdx? (· == '.') with
  | none => name
  | some r =>
      let dotIdx := cs.length - 1 - r
      if (cs.take dotIdx).any (· != '.') then (cs.take dotIdx).asString
      else name

/-- Python's `int(str)` on the strings this pipeline can produce: optional
surrounding spaces, an optional sign, then a non-empty run of decimal
digits; anything else raises `ValueError`, modelled as `none`.  (Python
additionally accepts underscore digit separators and other unicode spaces,
which cannot occur in `page-<n>.<ext>` file names.) -/
def parsePyInt (s : String) : Option ℤ :=
  let cs := ((s.toList.dropWhile (· == ' ')).reverse.dropWhile (· == ' ')).reverse
  let signDigits : ℤ × List Char :=
    match cs with
    | '-' :: rest => (-1, rest)
    | '+' :: rest => (1, rest)
    | rest => (1, rest)
  if !signDigits.2.isEmpty && signDigits.2.all (·.isDigit) then
    some (signDigits.1 *
      (signDigits.2.foldl (fun acc c => acc * 10 + ((c.toNat - 48 : ℕ) : ℤ)) 0))
  else none

/-- The literal `"page-"` removed from image-file stems. -/
def pageTag : String := "page-"

/-- The empty replacement string. -/
def emptyStr : String := ""

/-- Python's `str.replace`: scan left to right, replacing non-overlapping
occurrences of `pat` by `rep`.  `fuel` bounds the recursion (one character
is consumed per step, so the input length suffices); the empty pattern,
which Python treats specially, never occurs in this pipeline. -/
def replaceAllFuel (pat rep : List Char) : ℕ → List Char → List Char
  | _, [] => []
  | 0, s => s
  | Nat.succ fuel, c :: rest =>
      if pat.isPrefixOf (c :: rest) && !pat.isEmpty then
        rep ++ replaceAllFuel pat rep fuel ((c :: rest).drop pat.length)
      else c :: replaceAllFuel pat rep fuel rest

/-- Python's `s.replace(pat, rep)` on strings. -/
def pyReplace (s pat rep : String) : String :=
  (replaceAllFuel pat.toList rep.toList s.toList.length s.toList).asString

/-- `int(os.path.splitext(img_name)[0].replace("page-", ""))` (line 57):
the page number parsed from an image file name, before the `- 1`
normalization; `none` models the `ValueError` raised on a malformed name. -/
def parsePageNumber (img_name : String) : Option ℤ :=
  parsePyInt (pyReplace (splitextStem img_name) pageTag emptyStr)

/-- `page_images[page_number] = page_image` on a Python dict: overwrite in
place when the key exists (keeping its position), append otherwise. -/
def insertPage (pages : List (ℤ × Image)) (k : ℤ) (img : Image) :
    List (ℤ × Image) :=
  if pages.any (fun p => p.1 == k) then
    pages.map fun p => if p.1 == k then (k, img) else p
  else pages ++ [(k, img)]

/-- The page-loading loop of `locate_entities` (lines 50-58): for each
directory entry, test the decoded image for black pixels (OR-ed into the
running flag), parse the page number from the file name, and key the image
by that number minus one.  A malformed name raises, carrying the name. -/
def loadPagesAux (pages : List (ℤ × Image)) (black : Bool) :
    List (String × Image) → Except String (List (ℤ × Image) × Bool)
  | [] => Except.ok (pages, black)
  | (name, img) :: rest =>
      let black2 := black || contains_black_pixels img
      match parsePageNumber name with
      | none => Except.error name
      | some n => loadPagesAux (insertPage pages (n - 1) img) black2 rest

/-- Page loading for one diff directory, starting from an empty dict and a
clear black-pixel flag. -/
def loadPageImages (listing : List (String × Image)) :
    Except String (List (ℤ × Image) × Bool) :=
  loadPagesAux [] false listing

/-- `entity_locations[entity_id].append(box)` over a whole box list (lines
63-65): on a `defaultdict(list)` the key is only created when at least one
box is appended; an existing key keeps its position and grows its list. -/
def appendBoxes (locs : List (String × List BoundingBox)) (key : String)
    (boxes : List BoundingBox) : List (String × List BoundingBox) :=
  if boxes.isEmpty then locs
  else if locs.any (fun kv => kv.1 == key) then
    locs.map fun kv => if kv.1 == key then (kv.1, kv.2 ++ boxes) else kv
  else locs ++ [(key, boxes)]

/-- The per-file entity loop (lines 61-65): for every entity/hue pair and
every loaded page, run `extract_bounding_boxes` and append the boxes to the
entity's running list. -/
def locateInFile (extract : Image → ℤ → ℚ → List BoundingBox)
    (entity_hues : List (String × ℚ)) (pages : List (ℤ × Image))
    (locs : List (String × List BoundingBox)) :
    List (String × List BoundingBox) :=
  entity_hues.foldl
    (fun acc eh =>
      pages.foldl (fun acc2 pi => appendBoxes acc2 eh.1 (extract pi.2 pi.1 eh.2))
        acc)
    locs

/-- The main loop of `locate_entities` (lines 37-72) over the output
paths: a missing diff directory returns `None` immediately (line 48),
discarding any accumulation from earlier files; otherwise pages are loaded
(propagating an exception) and every entity is searched on every page. -/
def locateLoop (extract : Image → ℤ → ℚ → List BoundingBox)
    (diffDirs : String → Option (List (String × Image)))
    (entity_hues : List (String × ℚ)) :
    List String → Bool → List (String × List BoundingBox) → LocateOutcome
  | [], black, locs =>
      LocateOutcome.success ⟨locs, [], none, black⟩
  | path :: rest, black, locs =>
      match diffDirs path with
      | none => LocateOutcome.failed
      | some listing =>
          match loadPageImages listing with
          | Except.error name => LocateOutcome.raised name
          | Except.ok (pages, blackFile) =>
              locateLoop extract diffDirs entity_hues rest (black || blackFile)
                (locateInFile extract entity_hues pages locs)

/-- `locate_entities` (locate_entities.py lines 25-72). -/
def locate_entities (extract : Image → ℤ → ℚ → List BoundingBox)
    (diffDirs : String → Option (List (String × Image)))
    (output_paths : List String)
    (entity_hues : List (String × ℚ)) : LocateOutcome :=
  locateLoop extract diffDirs entity_hues output_paths false []

/-!
## The citations export writer

`WriteCitationsOutput.save` and `write_to_file`
(`entities/citations/commands/write_citations_output.py` lines 98-146).
The JSON value built by `json.dump` is modelled by an explicit `Json`
inductive; the destination file is `Option Json` (`none` = the file does
not exist).  `citation_locations` is a dict from citation key to a dict
from cluster index to the cluster's bounding boxes, and `key_s2_ids` the
resolution dict from citation key to S2 paper id; both are modelled as
association lists.
-/

/-- JSON values as produced by Python's `json.dump`. -/
inductive Json where
  | str : String → Json
  | intNum : ℤ → Json
  | ratNum : ℚ → Json
  | arr : List Json → Json
  | obj : List (String × Json) → Json
deriving Repr

/-- `common.types.EntityUploadInfo` as used by the citations writer: the
`data` payload is a string-to-string dict. -/
structure EntityUploadInfo where
  id_ : String
  type_ : String
  bounding_boxes : List BoundingBox
  data : List (String × String)
deriving Repr, DecidableEq

/-- Field names used in the serialized output. -/
def pageField : String := "page"

/-- Field name for the left coordinate. -/
def leftField : String := "left"

/-- Field name for the top coordinate. -/
def topField : String := "top"

/-- Field name for the width. -/
def widthField : String := "width"

/-- Field name for the height. -/
def heightField : String := "height"

/-- `dataclasses.asdict` on a `BoundingBox`. -/
def boxToJson (b : BoundingBox) : Json :=
  Json.obj [(pageField, Json.intNum b.page), (leftField, Json.ratNum b.left),
    (topField, Json.ratNum b.top), (widthField, Json.ratNum b.width),
    (heightField, Json.ratNum b.height)]

/-- Field name of the entity id in the serialized output. -/
def idField : String := "id_"

/-- Field name of the entity type. -/
def typeField : String := "type_"

/-- Field name of the bounding-box list. -/
def boxesField : String := "bounding_boxes"

/-- Field name of the opaque data payload. -/
def dataField : String := "data"

/-- `dataclasses.asdict` on an `EntityUploadInfo`. -/
def entityInfoToJson (e : EntityUploadInfo) : Json :=
  Json.obj [(idField, Json.str e.id_), (typeField, Json.str e.type_),
    (boxesField, Json.arr (e.bounding_boxes.map boxToJson)),
    (dataField, Json.obj (e.data.map fun kv => (kv.1, Json.str kv.2)))]

/-- Key of the format-version tag in the output object. -/
def versionField : String := "version"

/-- `WriteCitationsOutput.write_to_file` (lines 129-146) as a transition on
the destination file's contents: build the `to_write` object holding the
format version and the serialized entity infos; if the destination already
exists, only log a warning and leave it untouched, otherwise write the
object. -/
def write_to_file (dest : Option Json)
    (entity_infos : List EntityUploadInfo) (format_version : String) :
    Option Json :=
  let to_write := Json.obj
    [(versionField, Json.str format_version),
     (dataField, Json.arr (entity_infos.map entityInfoToJson))]
  match dest with
  | some existing => some existing
  | none => some to_write

/-- Lookup in a dict modelled as an association list
(`citation_key in key_s2_ids` / `key_s2_ids[citation_key]`). -/
def lookupKey (m : List (String × String)) (k : String) : Option String :=
  (m.find? fun kv => kv.1 == k).map fun kv => kv.2

/-- The citation key field of the data payload. -/
def keyField : String := "key"

/-- The resolved paper id field of the data payload. -/
def paperIdField : String := "paper_id"

/-- The entity type tag written for citations. -/
def citationType : String := "citation"

/-- The text between key and cluster index in an exported citation id. -/
def dashStr : String := "-"

/-- The `EntityUploadInfo` built for one resolved citation cluster (lines
116-122): id is the f-string `f"{citation_key}-{cluster_index}"`. -/
def mkCitationInfo (key : String) (cluster_index : ℤ)
    (boxes : List BoundingBox) (s2id : String) : EntityUploadInfo :=
  { id_ := key ++ dashStr ++ toString cluster_index
    type_ := citationType
    bounding_boxes := boxes
    data := [(keyField, key), (paperIdField, s2id)] }

/-- The entity-info accumulation loop of `WriteCitationsOutput.save` (lines
98-124): citation keys missing from the resolution dict are skipped with a
warning (`continue`); a resolved key contributes one `EntityUploadInfo` per
cluster, in cluster order. -/
def save_entity_infos
    (citation_locations : List (String × List (ℤ × List BoundingBox)))
    (key_s2_ids : List (String × String)) : List EntityUploadInfo :=
  citation_locations.foldl
    (fun infos kc =>
      match lookupKey key_s2_ids kc.1 with
      | none => infos
      | some s2id =>
          infos ++ kc.2.map fun cb => mkCitationInfo kc.1 cb.1 cb.2 s2id)
    []

/-- The format version written by `save` (line 126). -/
def formatVersionV0 : String := "v0"

/-- `WriteCitationsOutput.save` (lines 98-127) as a transition on the
destination file: accumulate the entity infos, then call `write_to_file`
with format version `"v0"`. -/
def save (dest : Option Json)
    (citation_locations : List (String × List (ℤ × List BoundingBox)))
    (key_s2_ids : List (String × String)) : Option Json :=
  write_to_file dest (save_entity_infos citation_locations key_s2_ids)
    formatVersionV0

/-!
## Auxiliary notions and concrete data

`keysOf` gives the key set of a dict modelled as an association list; the
remaining definitions are the concrete inputs used to evaluate the theorems
below on closed instances.
-/

/-- The keys of a dict modelled as an association list. -/
def keysOf {β : Type} (l : List (String × β)) : List String := l.map Prod.fst

/-- A one-pixel baseline page: a single blank (white) pixel. -/
def imgBefore1 : Image := [⟨0, 0, 255⟩]

/-- A one-pixel colorized page: a single saturated pixel of stored hue 2. -/
def imgAfter1 : Image := [⟨2, 255, 255⟩]

/-- A page of white background plus a fully saturated colored rectangle. -/
def whiteAndColorImg : Image :=
  [⟨0, 0, 255⟩, ⟨0, 0, 255⟩, ⟨120, 255, 255⟩, ⟨120, 255, 255⟩]

/-- A page containing a solid black rectangle on white background. -/
def withBlackRectImg : Image := [⟨0, 0, 255⟩, ⟨0, 0, 0⟩, ⟨0, 0, 0⟩]

/-- A mask extractor returning one box tagged with the page it was given. -/
def extractW : Image → ℤ → ℚ → List BoundingBox := fun _ p _ => [⟨p, 1, 2, 3, 4⟩]

/-- A well-formed page-image file name for page 2. -/
def pageName2 : String := "page-2.png"

/-- A well-formed page-image file name for page 3. -/
def pageName3 : String := "page-3.png"

/-- A malformed page-image file name (stem is not an integer). -/
def badPageName : String := "page-x.png"

/-- An output-file path whose diff directory exists. -/
def pathF1 : String := "f1"

/-- An output-file path whose diff directory is missing. -/
def pathF2 : String := "f2"

/-- An entity id with an assigned hue. -/
def entityE1 : String := "e1"

/-- A file system with one existing one-page diff directory at `pathF1`. -/
def diffDirsW : String → Option (List (String × Image)) := fun p =>
  if p == pathF1 then some [(pageName2, [⟨0, 0, 255⟩])] else none

/-- The result of `locate_entities extractW diffDirsW [pathF1] [(entityE1, 1/2)]`. -/
def resultW : LocationResult := ⟨[(entityE1, [⟨1, 1, 2, 3, 4⟩])], [], none, false⟩

/-!
## Helper lemmas
-/

theorem contains_black_pixels_iff (img : Image) :
    contains_black_pixels img = true ↔ ∃ p ∈ img, p.s < 20 ∧ p.v < 150 := by
  simp [contains_black_pixels, List.any_eq_true]

theorem hueMatches_iff_spec (hpx : ℕ) (hue tol : ℚ) :
    hueMatches hpx hue tol = true ↔
      specCircularDistance ((hpx : ℚ) / 180) hue ≤ tol := by
  have hA : |(hpx : ℚ) / 180 - hue| = |(hpx : ℚ) - hue * 180| / 180 := by
    rw [show (hpx : ℚ) / 180 - hue = ((hpx : ℚ) - hue * 180) / 180 by ring, abs_div]
    norm_num
  simp only [hueMatches, decide_eq_true_eq, absDistanceToHue,
    specCircularDistance, hA, min_le_iff]
  constructor
  · rintro (h | h)
    · exact Or.inl (by linarith)
    · exact Or.inr (by linarith)
  · rintro (h | h)
    · exact Or.inl (by linarith)
    · exact Or.inr (by linarith)

theorem anyZipIff {α β : Type} (f : α × β → Bool) :
    ∀ (l₁ : List α) (l₂ : List β),
      ((l₁.zip l₂).any f) = true ↔
        ∃ i, ∃ h₁ : i < l₁.length, ∃ h₂ : i < l₂.length,
          f (l₁.get ⟨i, h₁⟩, l₂.get ⟨i, h₂⟩) = true
  | [], l₂ => by simp
  | a :: as, [] => by simp
  | a :: as, b :: bs => by
      simp only [List.zip_cons_cons, List.any_cons, Bool.or_eq_true,
        anyZipIff f as bs]
      constructor
      · rintro (h | ⟨i, h₁, h₂, h⟩)
        · exact ⟨0, by simp, by simp, h⟩
        · exact ⟨i + 1, by simpa using h₁, by simpa using h₂, h⟩
      · rintro ⟨i, h₁, h₂, h⟩
        cases i with
        | zero => exact Or.inl h
        | succ j =>
            exact Or.inr ⟨j, by simpa using h₁, by simpa using h₂, h⟩

theorem hueMatches_mono (hpx : ℕ) (hue t t' : ℚ) (htt : t ≤ t')
    (h : hueMatches hpx hue t = true) : hueMatches hpx hue t' = true := by
  simp only [hueMatches, decide_eq_true_eq] at h ⊢
  have h180 : t * 180 ≤ t' * 180 :=
    mul_le_mul_of_nonneg_right htt (by norm_num)
  linarith

theorem saveFold_eq (ks : List (String × String)) :
    ∀ (cls : List (String × List (ℤ × List BoundingBox)))
      (init : List EntityUploadInfo),
      cls.foldl
        (fun infos kc =>
          match lookupKey ks kc.1 with
          | none => infos
          | some s2id =>
              infos ++ kc.2.map fun cb => mkCitationInfo kc.1 cb.1 cb.2 s2id)
        init
      = init ++ cls.flatMap fun kc =>
          match lookupKey ks kc.1 with
          | none => []
          | some s2id => kc.2.map fun cb => mkCitationInfo kc.1 cb.1 cb.2 s2id
  | [], init => by simp
  | kc :: rest, init => by
      simp only [List.foldl_cons, List.flatMap_cons]
      cases h : lookupKey ks kc.1 with
      | none => simp [h, saveFold_eq ks rest]
      | some s => simp [h, saveFold_eq ks rest]

theorem appendBoxes_keys (locs : List (String × List BoundingBox))
    (key : String) (boxes : List BoundingBox) (k : String)
    (h : k ∈ keysOf (appendBoxes locs key boxes)) :
    k ∈ keysOf locs ∨ k = key := by
  unfold appendBoxes at h
  split_ifs at h with h1 h2
  · exact Or.inl h
  · left
    have hmap : keysOf (locs.map fun kv =>
        if kv.1 == key then (kv.1, kv.2 ++ boxes) else kv) = keysOf locs := by
      unfold keysOf
      rw [List.map_map]
      congr 1
      funext kv
      simp only [Function.comp_apply]
      split <;> rfl
    rwa [hmap] at h
  · unfold keysOf at h
    rw [List.map_append, List.mem_append] at h
    rcases h with h | h
    · exact Or.inl h
    · simp at h
      exact Or.inr h

theorem pagesFold_keys (extract : Image → ℤ → ℚ → List BoundingBox)
    (hue : ℚ) (key : String) :
    ∀ (pages : List (ℤ × Image)) (locs : List (String × List BoundingBox))
      (k : String),
      k ∈ keysOf (pages.foldl
        (fun acc pi => appendBoxes acc key (extract pi.2 pi.1 hue)) locs) →
      k ∈ keysOf locs ∨ k = key
  | [], locs, k => fun h => Or.inl h
  | pi :: rest, locs, k => fun h => by
      simp only [List.foldl_cons] at h
      rcases pagesFold_keys extract hue key rest _ k h with h2 | h2
      · exact appendBoxes_keys _ _ _ _ h2
      · exact Or.inr h2

theorem locateInFile_keys (extract : Image → ℤ → ℚ → List BoundingBox) :
    ∀ (hues : List (String × ℚ)) (pages : List (ℤ × Image))
      (locs : List (String × List BoundingBox)) (k : String),
      k ∈ keysOf (locateInFile extract hues pages locs) →
      k ∈ keysOf locs ∨ k ∈ keysOf hues
  | [], pages, locs, k => fun h => Or.inl h
  | eh :: rest, pages, locs, k => fun h => by
      unfold locateInFile at h
      simp only [List.foldl_cons] at h
      rcases locateInFile_keys extract rest pages _ k h with h2 | h2
      · rcases pagesFold_keys extract eh.2 eh.1 pages locs k h2 with h3 | h3
        · exact Or.inl h3
        · right
          unfold keysOf
          rw [List.map_cons]
          exact h3 ▸ List.mem_cons_self _ _
      · right
        unfold keysOf
        rw [List.map_cons]
        exact List.mem_cons_of_mem _ h2

theorem locateLoop_keys (extract : Image → ℤ → ℚ → List BoundingBox)
    (diffDirs : String → Option (List (String × Image)))
    (hues : List (String × ℚ)) :
    ∀ (paths : List String) (black : Bool)
      (locs : List (String × List BoundingBox)) (r : LocationResult),
      locateLoop extract diffDirs hues paths black locs =
        LocateOutcome.success r →
      ∀ k ∈ keysOf r.locations, k ∈ keysOf locs ∨ k ∈ keysOf hues
  | [], black, locs, r => by
      intro h k hk
      simp only [locateLoop, LocateOutcome.success.injEq] at h
      subst h
      exact Or.inl hk
  | path :: rest, black, locs, r => by
      intro h k hk
      simp only [locateLoop] at h
      cases hd : diffDirs path with
      | none => rw [hd] at h; simp at h
      | some listing =>
          simp only [hd] at h
          cases hl : loadPageImages listing with
          | error n => simp only [hl] at h; simp at h
          | ok pb =>
              obtain ⟨pages, bf⟩ := pb
              simp only [hl] at h
              rcases locateLoop_keys extract diffDirs hues rest _ _ r h k hk
                with h2 | h2
              · exact locateInFile_keys extract hues pages locs k h2
              · exact Or.inr h2

theorem locateLoop_flags (extract : Image → ℤ → ℚ → List BoundingBox)
    (diffDirs : String → Option (List (String × Image)))
    (hues : List (String × ℚ)) :
    ∀ (paths : List String) (black : Bool)
      (locs : List (String × List BoundingBox)) (r : LocationResult),
      locateLoop extract diffDirs hues paths black locs =
        LocateOutcome.success r →
      r.shifted_entities = [] ∧ r.first_shifted_entity = none
  | [], black, locs, r => by
      intro h
      simp only [locateLoop, LocateOutcome.success.injEq] at h
      subst h
      exact ⟨rfl, rfl⟩
  | path :: rest, black, locs, r => by
      intro h
      simp only [locateLoop] at h
      cases hd : diffDirs path with
      | none => rw [hd] at h; simp at h
      | some listing =>
          simp only [hd] at h
          cases hl : loadPageImages listing with
          | error n => simp only [hl] at h; simp at h
          | ok pb =>
              obtain ⟨pages, bf⟩ := pb
              simp only [hl] at h
              exact locateLoop_flags extract diffDirs hues rest _ _ r h

theorem locateLoop_missing (extract : Image → ℤ → ℚ → List BoundingBox)
    (diffDirs : String → Option (List (String × Image)))
    (hues : List (String × ℚ)) :
    ∀ (paths : List String) (black : Bool)
      (locs : List (String × List BoundingBox)),
      (∃ p ∈ paths, diffDirs p = none) →
      (∀ r, locateLoop extract diffDirs hues paths black locs ≠
          LocateOutcome.success r)
      ∧ ((∀ p ∈ paths, ∀ listing, diffDirs p = some listing →
            ∃ v, loadPageImages listing = Except.ok v) →
          locateLoop extract diffDirs hues paths black locs =
            LocateOutcome.failed)
  | [], black, locs => by rintro ⟨p, hp, _⟩; simp at hp
  | path :: rest, black, locs => by
      rintro ⟨p, hp, hpnone⟩
      cases hd : diffDirs path with
      | none =>
          constructor
          · intro r h
            simp only [locateLoop, hd] at h
            exact LocateOutcome.noConfusion h
          · intro _
            simp only [locateLoop, hd]
      | some listing =>
          have hprest : p ∈ rest := by
            rcases List.mem_cons.mp hp with rfl | hrest
            · rw [hd] at hpnone; cases hpnone
            · exact hrest
          cases hl : loadPageImages listing with
          | error n =>
              constructor
              · intro r h
                simp only [locateLoop, hd, hl] at h
                exact LocateOutcome.noConfusion h
              · intro hok
                obtain ⟨v, hv⟩ := hok path (List.mem_cons_self _ _) listing hd
                rw [hv] at hl
                cases hl
          | ok pb =>
              obtain ⟨pages, bf⟩ := pb
              have ih := locateLoop_missing extract diffDirs hues rest
                (black || bf) (locateInFile extract hues pages locs)
                ⟨p, hprest, hpnone⟩
              constructor
              · intro r h
                simp only [locateLoop, hd, hl] at h
                exact ih.1 r h
              · intro hok
                simp only [locateLoop, hd, hl]
                exact ih.2 fun q hq => hok q (List.mem_cons_of_mem _ hq)

theorem insertPage_mem (pages : List (ℤ × Image)) (k : ℤ) (img : Image)
    (q : ℤ × Image) (h : q ∈ insertPage pages k img) :
    q ∈ pages ∨ q = (k, img) := by
  unfold insertPage at h
  split_ifs at h with h1
  · rw [List.mem_map] at h
    obtain ⟨p, hp, hq⟩ := h
    split at hq
    · exact Or.inr hq.symm
    · exact Or.inl (hq ▸ hp)
  · rw [List.mem_append] at h
    rcases h with h | h
    · exact Or.inl h
    · simp at h
      exact Or.inr h

theorem loadPagesAux_mem :
    ∀ (listing : List (String × Image)) (pages0 : List (ℤ × Image))
      (black : Bool) (pages : List (ℤ × Image)) (b : Bool),
      loadPagesAux pages0 black listing = Except.ok (pages, b) →
      ∀ q ∈ pages, q ∈ pages0 ∨
        ∃ e ∈ listing, parsePageNumber e.1 = some (q.1 + 1) ∧ e.2 = q.2
  | [], pages0, black, pages, b => by
      intro h q hq
      simp only [loadPagesAux, Except.ok.injEq, Prod.mk.injEq] at h
      exact Or.inl (h.1 ▸ hq)
  | (name, img) :: rest, pages0, black, pages, b => by
      intro h q hq
      simp only [loadPagesAux] at h
      cases hp : parsePageNumber name with
      | none =>
          simp only [hp] at h
          exact Except.noConfusion h
      | some n =>
          simp only [hp] at h
          rcases loadPagesAux_mem rest _ _ pages b h q hq with hin | ⟨e, he, hpe⟩
          · rcases insertPage_mem pages0 (n - 1) img q hin with hin0 | hq0
            · exact Or.inl hin0
            · refine Or.inr ⟨(name, img), List.mem_cons_self _ _, ?_, ?_⟩
              · rw [hp, hq0]
                norm_num
              · rw [hq0]
          · exact Or.inr ⟨e, List.mem_cons_of_mem _ he, hpe⟩

theorem loadPagesAux_error :
    ∀ (listing : List (String × Image)) (pages0 : List (ℤ × Image))
      (black : Bool),
      (∃ e ∈ listing, parsePageNumber e.1 = none) →
      ∃ n, loadPagesAux pages0 black listing = Except.error n
  | [], pages0, black => by rintro ⟨e, he, _⟩; simp at he
  | (name, img) :: rest, pages0, black => by
      rintro ⟨e, he, hbad⟩
      cases hp : parsePageNumber name with
      | none => exact ⟨name, by simp [loadPagesAux, hp]⟩
      | some n =>
          have herest : e ∈ rest := by
            rcases List.mem_cons.mp he with rfl | h2
            · rw [hp] at hbad; cases hbad
            · exact h2
          obtain ⟨m, hm⟩ := loadPagesAux_error rest
            (insertPage pages0 (n - 1) img) (black || contains_black_pixels img)
            ⟨e, herest, hbad⟩
          exact ⟨m, by simp only [loadPagesAux, hp]; exact hm⟩

theorem locateLoop_bad_name (extract : Image → ℤ → ℚ → List BoundingBox)
    (diffDirs : String → Option (List (String × Image)))
    (hues : List (String × ℚ)) :
    ∀ (paths : List String) (black : Bool)
      (locs : List (String × List BoundingBox)) (p : String)
      (listing : List (String × Image)),
      p ∈ paths → diffDirs p = some listing →
      (∃ e ∈ listing, parsePageNumber e.1 = none) →
      ∀ r, locateLoop extract diffDirs hues paths black locs ≠
        LocateOutcome.success r
  | [], black, locs, p, listing => by
      intro hp _ _ r
      simp at hp
  | path :: rest, black, locs, p, listing => by
      intro hp hdir hbad r h
      cases hd : diffDirs path with
      | none =>
          simp only [locateLoop, hd] at h
          exact LocateOutcome.noConfusion h
      | some qlisting =>
          cases hl : loadPageImages qlisting with
          | error n =>
              simp only [locateLoop, hd, hl] at h
              exact LocateOutcome.noConfusion h
          | ok pb =>
              obtain ⟨pages, bf⟩ := pb
              have hprest : p ∈ rest := by
                rcases List.mem_cons.mp hp with rfl | h2
                · rw [hd] at hdir
                  obtain rfl : qlisting = listing := by
                    injection hdir
                  obtain ⟨m, hm⟩ := loadPagesAux_error qlisting [] false hbad
                  rw [loadPageImages, hm] at hl
                  cases hl
                · exact h2
              simp only [locateLoop, hd, hl] at h
              exact locateLoop_bad_name extract diffDirs hues rest
                (black || bf) (locateInFile extract hues pages locs)
                p listing hprest hdir hbad r h

/-!
## Claim theorems
-/

/-- C1: if the diff-image directory for any one of a document's output
files does not exist, `locate_entities` reports whole-document failure by
returning `None`: no partial per-entity box list is ever returned for the
document (even when other output files' directories exist and were already
processed), and whenever the existing directories' listings are themselves
loadable the outcome is exactly the `None` return. -/
theorem locate_entities_missing_dir_spec
    (extract : Image → ℤ → ℚ → List BoundingBox)
    (diffDirs : String → Option (List (String × Image)))
    (paths : List String) (hues : List (String × ℚ))
    (hmiss : ∃ p ∈ paths, diffDirs p = none) :
    (∀ r, locate_entities extract diffDirs paths hues ≠
        LocateOutcome.success r)
    ∧ ((∀ p ∈ paths, ∀ listing, diffDirs p = some listing →
          ∃ v, loadPageImages listing = Except.ok v) →
        locate_entities extract diffDirs paths hues = LocateOutcome.failed) :=
  locateLoop_missing extract diffDirs hues paths false [] hmiss

/-- Witness for C1: with `pathF1` existing and already processed and
`pathF2` missing, the run returns the `None` outcome. -/
theorem locate_entities_missing_dir_spec_witness :
    locate_entities extractW diffDirsW [pathF1, pathF2]
      [(entityE1, (1 : ℚ)/2)] = LocateOutcome.failed :=
  (locate_entities_missing_dir_spec extractW diffDirsW [pathF1, pathF2]
      [(entityE1, 1/2)]
      ⟨pathF2, by simp, rfl⟩).2
    (by
      intro p hp listing hlist
      rcases List.mem_cons.mp hp with rfl | hp2
      · refine ⟨([((1 : ℤ), [⟨0, 0, 255⟩])], false), ?_⟩
        have : listing = [(pageName2, [⟨0, 0, 255⟩])] := by
          simpa [diffDirsW, pathF1] using hlist.symm
        subst this
        rfl
      · simp at hp2
        subst hp2
        rw [show diffDirsW pathF2 = none from rfl] at hlist
        cases hlist)

/-- C2: `has_hue_shifted before after h t` is true iff some pixel position
changes its blank/non-blank classification (blank = saturation < 10 and
value > 230) between the two images and the hue of the `after` pixel there
is within circular distance `t` of the target hue `h` on the normalized
hue circle. -/
theorem has_hue_shifted_iff (before after : Image) (hue tol : ℚ)
    (hlen : before.length = after.length) :
    has_hue_shifted before after hue tol = true ↔
      ∃ i, ∃ hb : i < before.length, ∃ ha : i < after.length,
        blankPixel (before.get ⟨i, hb⟩) ≠ blankPixel (after.get ⟨i, ha⟩) ∧
        specCircularDistance (((after.get ⟨i, ha⟩).h : ℚ) / 180) hue ≤ tol := by
  unfold has_hue_shifted
  rw [anyZipIff]
  constructor
  · rintro ⟨i, h₁, h₂, hf⟩
    simp only [Bool.and_eq_true, bne_iff_ne] at hf
    exact ⟨i, h₁, h₂, hf.1, (hueMatches_iff_spec _ hue tol).mp hf.2⟩
  · rintro ⟨i, h₁, h₂, hne, hd⟩
    refine ⟨i, h₁, h₂, ?_⟩
    simp only [Bool.and_eq_true, bne_iff_ne]
    exact ⟨hne, (hueMatches_iff_spec _ hue tol).mpr hd⟩

/-- Witness for C2 at a concrete pair of one-pixel images. -/
theorem has_hue_shifted_iff_witness :
    imgBefore1.length = imgAfter1.length ∧
      (has_hue_shifted imgBefore1 imgAfter1 0 (2/100) = true ↔
        ∃ i, ∃ hb : i < imgBefore1.length, ∃ ha : i < imgAfter1.length,
          blankPixel (imgBefore1.get ⟨i, hb⟩) ≠
              blankPixel (imgAfter1.get ⟨i, ha⟩) ∧
          specCircularDistance (((imgAfter1.get ⟨i, ha⟩).h : ℚ) / 180) 0 ≤
            2/100) :=
  ⟨rfl, has_hue_shifted_iff imgBefore1 imgAfter1 0 (2/100) rfl⟩

/-- C3: hue matching in `has_hue_shifted` is circular: a stored hue channel
`hpx` matches target `h` with tolerance `t` exactly when
`min |hpx - 180*h| (180 - |hpx - 180*h|) ≤ 180*t`; in particular hue 0.99
against target 0.01 with tolerance 0.03 has circular distance 0.02 (in
scaled units, within tolerance) while its linear distance 0.98 would lie
far outside. -/
theorem hueMatches_circular :
    (∀ (hpx : ℕ) (h t : ℚ), hueMatches hpx h t = true ↔
        min |(hpx : ℚ) - 180 * h| (180 - |(hpx : ℚ) - 180 * h|) ≤ 180 * t)
    ∧ absDistanceToHue ((99/100) * 180) ((1/100) * 180) = (2/100) * 180
    ∧ absDistanceToHue ((99/100) * 180) ((1/100) * 180) ≤ (3/100) * 180
    ∧ (3/100 : ℚ) * 180 < |((99/100 : ℚ)) * 180 - (1/100) * 180| := by
  refine ⟨fun hpx h t => ?_, ?_, ?_, ?_⟩
  · simp only [hueMatches, decide_eq_true_eq, absDistanceToHue]
    rw [mul_comm h 180, mul_comm t 180]
  · rw [absDistanceToHue, abs_of_nonneg (by norm_num)]
    norm_num [min_eq_right]
  · rw [absDistanceToHue, abs_of_nonneg (by norm_num), min_le_iff]
    right
    norm_num
  · rw [abs_of_nonneg (by norm_num)]
    norm_num

/-- C4: `contains_black_pixels` is true iff some pixel has saturation < 20
and value < 150; consequently it is false for an image of white background
plus a fully saturated colored rectangle and true for any image containing
a solid black rectangle. -/
theorem contains_black_pixels_spec (img : Image) :
    (contains_black_pixels img = true ↔ ∃ p ∈ img, p.s < 20 ∧ p.v < 150)
    ∧ ((∀ p ∈ img, (p.s = 0 ∧ p.v = 255) ∨ p.s = 255) →
        contains_black_pixels img = false)
    ∧ ((∃ p ∈ img, p.s = 0 ∧ p.v = 0) → contains_black_pixels img = true) := by
  refine ⟨contains_black_pixels_iff img, ?_, ?_⟩
  · intro hall
    by_contra hne
    rw [Bool.not_eq_false] at hne
    obtain ⟨p, hp, hs, hv⟩ := (contains_black_pixels_iff img).mp hne
    rcases hall p hp with ⟨h0, h255⟩ | h255 <;> omega
  · rintro ⟨p, hp, hs, hv⟩
    exact (contains_black_pixels_iff img).mpr ⟨p, hp, by omega, by omega⟩

/-- Witness for C4 on concrete white-plus-color and black-rectangle pages. -/
theorem contains_black_pixels_spec_witness :
    contains_black_pixels whiteAndColorImg = false ∧
      contains_black_pixels withBlackRectImg = true :=
  ⟨(contains_black_pixels_spec whiteAndColorImg).2.1 (by decide),
    (contains_black_pixels_spec withBlackRectImg).2.2
      ⟨⟨0, 0, 0⟩, by decide, rfl, rfl⟩⟩

/-- C5: on every successful `locate_entities` run, the entity ids keyed in
the returned locations form a subset of the ids supplied in the
entity-to-hue mapping. -/
theorem locate_entities_keys_subset (extract : Image → ℤ → ℚ → List BoundingBox)
    (diffDirs : String → Option (List (String × Image)))
    (paths : List String) (hues : List (String × ℚ)) (r : LocationResult)
    (h : locate_entities extract diffDirs paths hues = LocateOutcome.success r) :
    ∀ k ∈ keysOf r.locations, k ∈ keysOf hues := by
  intro k hk
  rcases locateLoop_keys extract diffDirs hues paths false [] r h k hk with h2 | h2
  · simp [keysOf] at h2
  · exact h2

/-- Witness for C5 on a concrete one-file, one-entity run. -/
theorem locate_entities_keys_subset_witness :
    entityE1 ∈ keysOf [(entityE1, (1 : ℚ)/2)] :=
  locate_entities_keys_subset extractW diffDirsW [pathF1]
    [(entityE1, 1/2)] resultW rfl entityE1 (by simp [resultW, keysOf])

/-- C6: every `LocationResult` returned by `locate_entities` has
`shifted_entities = []` and `first_shifted_entity = None`: the layout-shift
detector's result is never wired into the locate path's output. -/
theorem locate_entities_no_shift_wiring
    (extract : Image → ℤ → ℚ → List BoundingBox)
    (diffDirs : String → Option (List (String × Image)))
    (paths : List String) (hues : List (String × ℚ)) (r : LocationResult)
    (h : locate_entities extract diffDirs paths hues = LocateOutcome.success r) :
    r.shifted_entities = [] ∧ r.first_shifted_entity = none :=
  locateLoop_flags extract diffDirs hues paths false [] r h

/-- Witness for C6 on a concrete successful run. -/
theorem locate_entities_no_shift_wiring_witness :
    resultW.shifted_entities = [] ∧ resultW.first_shifted_entity = none :=
  locate_entities_no_shift_wiring extractW diffDirsW [pathF1]
    [(entityE1, 1/2)] resultW rfl

/-- C7: `write_to_file` refuses to overwrite an existing destination (the
old contents are kept byte for byte), writes a JSON object tagged with a
`"version"` key next to the entity data when the destination is absent, and
is therefore idempotent by refusal across two invocations. -/
theorem write_to_file_spec :
    (∀ (j : Json) (e : List EntityUploadInfo) (v : String),
        write_to_file (some j) e v = some j)
    ∧ (∀ (e : List EntityUploadInfo) (v : String),
        write_to_file none e v =
          some (Json.obj [(versionField, Json.str v),
            (dataField, Json.arr (e.map entityInfoToJson))]))
    ∧ (∀ (e e2 : List EntityUploadInfo) (v v2 : String),
        write_to_file (write_to_file none e v) e2 v2 =
          write_to_file none e v) :=
  ⟨fun _ _ _ => rfl, fun _ _ => rfl, fun _ _ _ _ => rfl⟩

/-- C8: the entity infos accumulated by `save` are exactly those of the
resolved citation keys, in order: a key absent from the resolution mapping
contributes nothing (and processing continues with the remaining keys),
and a resolved key contributes one `EntityUploadInfo` per cluster whose id
is the key, a dash, and the cluster index. -/
theorem save_entity_infos_spec
    (cls : List (String × List (ℤ × List BoundingBox)))
    (ks : List (String × String)) :
    save_entity_infos cls ks =
      (cls.flatMap fun kc =>
        match lookupKey ks kc.1 with
        | none => []
        | some s2id => kc.2.map fun cb => mkCitationInfo kc.1 cb.1 cb.2 s2id)
    ∧ ∀ (key : String) (ci : ℤ) (boxes : List BoundingBox) (s2id : String),
        (mkCitationInfo key ci boxes s2id).id_ = key ++ dashStr ++ toString ci :=
  ⟨by rw [save_entity_infos, saveFold_eq ks cls]; simp, fun _ _ _ _ => rfl⟩

/-- C9: pages are keyed internally by the parsed `page-<n>` number minus
one (every loaded page entry comes from a listing entry whose name parses
to its key plus one); a listing entry whose stem does not parse as an
integer makes page loading raise, and through `locate_entities` such a
directory can never yield a successful result. -/
theorem page_key_parsing_spec :
    (∀ (listing : List (String × Image)) (pages : List (ℤ × Image)) (b : Bool),
        loadPageImages listing = Except.ok (pages, b) →
        ∀ q ∈ pages,
          ∃ e ∈ listing, parsePageNumber e.1 = some (q.1 + 1) ∧ e.2 = q.2)
    ∧ (∀ listing : List (String × Image),
        (∃ e ∈ listing, parsePageNumber e.1 = none) →
        ∃ n, loadPageImages listing = Except.error n)
    ∧ (∀ (extract : Image → ℤ → ℚ → List BoundingBox)
        (diffDirs : String → Option (List (String × Image)))
        (paths : List String) (hues : List (String × ℚ)) (p : String)
        (listing : List (String × Image)),
        p ∈ paths → diffDirs p = some listing →
        (∃ e ∈ listing, parsePageNumber e.1 = none) →
        ∀ r, locate_entities extract diffDirs paths hues ≠
          LocateOutcome.success r) := by
  refine ⟨?_, ?_, ?_⟩
  · intro listing pages b h q hq
    rcases loadPagesAux_mem listing [] false pages b h q hq with h0 | h2
    · simp at h0
    · exact h2
  · intro listing hbad
    exact loadPagesAux_error listing [] false hbad
  · intro extract diffDirs paths hues p listing hp hdir hbad r
    exact locateLoop_bad_name extract diffDirs hues paths false [] p listing
      hp hdir hbad r

/-- Witness for C9: `page-3.png` is keyed as page 2, and a `page-x.png`
entry makes page loading raise. -/
theorem page_key_parsing_spec_witness :
    (∀ q ∈ [((2 : ℤ), ([] : Image))],
        ∃ e ∈ [(pageName3, ([] : Image))],
          parsePageNumber e.1 = some (q.1 + 1) ∧ e.2 = q.2)
    ∧ ∃ n, loadPageImages [(badPageName, ([] : Image))] = Except.error n :=
  ⟨page_key_parsing_spec.1 [(pageName3, [])] [(2, [])] false rfl,
    page_key_parsing_spec.2.1 [(badPageName, [])]
      ⟨(badPageName, []), List.mem_singleton.mpr rfl, rfl⟩⟩

/-- C10: `has_hue_shifted` is monotone in its tolerance: widening the
tolerance can only add matching pixels, never remove a detected shift. -/
theorem has_hue_shifted_mono (before after : Image) (h t t' : ℚ)
    (h0 : 0 ≤ t) (htt : t ≤ t')
    (hs : has_hue_shifted before after h t = true) :
    has_hue_shifted before after h t' = true := by
  unfold has_hue_shifted at hs ⊢
  rw [List.any_eq_true] at hs ⊢
  obtain ⟨pq, hmem, hf⟩ := hs
  rw [Bool.and_eq_true] at hf
  exact ⟨pq, hmem, by
    rw [Bool.and_eq_true]
    exact ⟨hf.1, hueMatches_mono _ _ _ _ htt hf.2⟩⟩

/-- Witness for C10 at concrete images and tolerances 0.02 ≤ 0.05. -/
theorem has_hue_shifted_mono_witness :
    (0 : ℚ) ≤ 2/100 ∧ (2/100 : ℚ) ≤ 5/100 ∧
      has_hue_shifted imgBefore1 imgAfter1 0 (2/100) = true ∧
      has_hue_shifted imgBefore1 imgAfter1 0 (5/100) = true := by
  have hs : has_hue_shifted imgBefore1 imgAfter1 0 (2/100) = true := by
    rw [(has_hue_shifted_iff imgBefore1 imgAfter1 0 (2/100) rfl)]
    refine ⟨0, by simp [imgBefore1], by simp [imgAfter1], ?_, ?_⟩
    · decide
    · show specCircularDistance ((2 : ℚ) / 180) 0 ≤ 2/100
      rw [specCircularDistance, abs_of_nonneg (by norm_num), min_le_iff]
      left
      norm_num
  exact ⟨by norm_num, by norm_num,
    hs, has_hue_shifted_mono imgBefore1 imgAfter1 0 (2/100) (5/100)
      (by norm_num) (by norm_num) hs⟩
